import Mathlib

/-!
Verification development for the tabular-rules-to-RDF mapping engine
(`script.py`, `script1.py`, `Old_structuremaker/script1.py`).

The Python sources are shallowly embedded: every pure helper becomes a Lean
function on `String`/`List Char`, the rdflib `Graph` becomes a duplicate-free
list of triples with set-semantics insertion, and the stateful per-row
processing branches become explicit graph-transforming functions.  The
external GeoNames lookup (an out-of-scope collaborator in the engine) is
modelled as a function parameter `String → Option GeoRecord`.
-/

/-! ## Character classes (Python `re` / `str` semantics, ASCII range)

`pyIsSpace` is Python's `\s` on the ASCII range (space, tab, newline,
carriage return, vertical tab, form feed); `pyIsWord` is Python's `\w`
(alphanumerics plus underscore) restricted to ASCII. -/

def pyIsSpace (c : Char) : Bool :=
  c == ' ' || c == '\t' || c == '\n' || c == '\r' || c == '\x0b' || c == '\x0c'

def pyIsWord (c : Char) : Bool :=
  c.isAlphanum || c == '_'

/-- Characters kept by `re.sub(r"[^\w\s-]", "", ...)`. -/
def keepChar (c : Char) : Bool :=
  pyIsWord c || pyIsSpace c || c == '-'

/-- Python `str.strip()` on a character list. -/
def stripList (l : List Char) : List Char :=
  ((l.dropWhile pyIsSpace).reverse.dropWhile pyIsSpace).reverse

def pyStrip (s : String) : String :=
  (stripList s.toList).asString

/-- `re.sub(r"\s+", "_", ...)`: each maximal whitespace run becomes one
underscore.  The boolean flag records whether we are inside a run. -/
def collapseGo : Bool → List Char → List Char
  | _, [] => []
  | inRun, c :: rest =>
    if pyIsSpace c then
      if inRun then collapseGo true rest else '_' :: collapseGo true rest
    else c :: collapseGo false rest

def collapseWs (l : List Char) : List Char :=
  collapseGo false l

/-- `make_safe_uri_label` (script.py:28-34, script1.py:23-29):
strip, drop characters outside `\w\s-`, replace whitespace runs with `_`. -/
def make_safe_uri_label (s : String) : String :=
  (collapseWs ((stripList s.toList).filter keepChar)).asString

/-! ### Facts about `make_safe_uri_label` -/

theorem collapseGo_mem {l : List Char} {b : Bool} {c : Char}
    (h : c ∈ collapseGo b l) : c = '_' ∨ (c ∈ l ∧ pyIsSpace c = false) := by
  induction l generalizing b with
  | nil => simp [collapseGo] at h
  | cons a rest ih =>
    simp only [collapseGo] at h
    by_cases ha : pyIsSpace a = true
    · simp only [ha, if_true] at h
      by_cases hb : b
      · subst hb
        simp only [if_true] at h
        rcases ih h with h' | h'
        · exact Or.inl h'
        · exact Or.inr ⟨List.mem_cons_of_mem _ h'.1, h'.2⟩
      · simp only [Bool.not_eq_true] at hb
        subst hb
        simp only [Bool.false_eq_true, if_false, List.mem_cons] at h
        rcases h with h | h
        · exact Or.inl h
        · rcases ih h with h' | h'
          · exact Or.inl h'
          · exact Or.inr ⟨List.mem_cons_of_mem _ h'.1, h'.2⟩
    · simp only [Bool.not_eq_true] at ha
      simp only [ha, Bool.false_eq_true, if_false, List.mem_cons] at h
      rcases h with h | h
      · subst h; exact Or.inr ⟨List.mem_cons_self _ _, ha⟩
      · rcases ih h with h' | h'
        · exact Or.inl h'
        · exact Or.inr ⟨List.mem_cons_of_mem _ h'.1, h'.2⟩

theorem collapseGo_id {l : List Char} (h : ∀ c ∈ l, pyIsSpace c = false)
    (b : Bool) : collapseGo b l = l := by
  induction l generalizing b with
  | nil => rfl
  | cons a rest ih =>
    have ha := h a (List.mem_cons_self _ _)
    simp only [collapseGo, ha, Bool.false_eq_true, if_false]
    exact congrArg (a :: ·) (ih (fun c hc => h c (List.mem_cons_of_mem _ hc)) false)

theorem dropWhile_eq_self_of_none {l : List Char} {p : Char → Bool}
    (h : ∀ c ∈ l, p c = false) : l.dropWhile p = l := by
  cases l with
  | nil => rfl
  | cons a rest =>
    have := h a (List.mem_cons_self _ _)
    simp [List.dropWhile, this]

theorem stripList_eq_self {l : List Char} (h : ∀ c ∈ l, pyIsSpace c = false) :
    stripList l = l := by
  unfold stripList
  rw [dropWhile_eq_self_of_none h]
  rw [dropWhile_eq_self_of_none (fun c hc => h c (List.mem_reverse.mp hc))]
  exact List.reverse_reverse l

theorem toList_asString (l : List Char) : (l.asString).toList = l := rfl

/-- C9 helper: every character of a safe label is a kept, non-whitespace
character. -/
theorem make_safe_uri_label_chars {s : String} {c : Char}
    (h : c ∈ (make_safe_uri_label s).toList) :
    keepChar c = true ∧ pyIsSpace c = false := by
  unfold make_safe_uri_label at h
  rw [toList_asString] at h
  rcases collapseGo_mem h with h' | h'
  · subst h'; exact ⟨by decide, by decide⟩
  · exact ⟨(List.mem_filter.mp h'.1).2, h'.2⟩

theorem asString_toList (s : String) : (s.toList).asString = s := by
  cases s; rfl

/-- C9: the safe-label derivation is idempotent (script.py:28-34,
script1.py:23-29): applying `make_safe_uri_label` twice gives the same
result as applying it once. -/
theorem make_safe_uri_label_idempotent (s : String) :
    make_safe_uri_label (make_safe_uri_label s) = make_safe_uri_label s := by
  generalize hdef : make_safe_uri_label s = t
  have hchars : ∀ c ∈ t.toList, keepChar c = true ∧ pyIsSpace c = false := by
    intro c hc
    exact make_safe_uri_label_chars (show c ∈ (make_safe_uri_label s).toList from hdef ▸ hc)
  show make_safe_uri_label t = t
  unfold make_safe_uri_label
  rw [stripList_eq_self (fun c hc => (hchars c hc).2)]
  rw [List.filter_eq_self.mpr (fun c hc => (hchars c hc).1)]
  rw [collapseWs, collapseGo_id (fun c hc => (hchars c hc).2) false]
  exact asString_toList t

/-! ## Date Normalizer (`parse_normalized_dates`, `format_date_for_xsd`) -/

/-- `^\d{8}-\d{8}$` on an (already stripped) character list. -/
def shapeRangeFull (l : List Char) : Bool :=
  l.length == 17 && (l.take 8).all Char.isDigit && (l.drop 8).take 1 == ['-']
    && (l.drop 9).all Char.isDigit

/-- `^\d{4}-\d{4}$`. -/
def shapeRangeYear (l : List Char) : Bool :=
  l.length == 9 && (l.take 4).all Char.isDigit && (l.drop 4).take 1 == ['-']
    && (l.drop 5).all Char.isDigit

/-- `^\d{8}$`. -/
def shapeSingleFull (l : List Char) : Bool :=
  l.length == 8 && l.all Char.isDigit

/-- `^\d{4}$`. -/
def shapeSingleYear (l : List Char) : Bool :=
  l.length == 4 && l.all Char.isDigit

def isDateShape (l : List Char) : Bool :=
  shapeRangeFull l || shapeRangeYear l || shapeSingleFull l || shapeSingleYear l

/-- `parse_normalized_dates` (script.py:36-47, script1.py:31-55): strip, then
test the four regex shapes in order; ranges are split at the first dash
(which, given the shape, sits right after the leading digit block). -/
def parse_normalized_dates (s : String) : Option String × Option String :=
  let l := stripList s.toList
  if shapeRangeFull l then (some (l.take 8).asString, some (l.drop 9).asString)
  else if shapeRangeYear l then (some (l.take 4).asString, some (l.drop 5).asString)
  else if shapeSingleFull l then (some l.asString, none)
  else if shapeSingleYear l then (some l.asString, none)
  else (none, none)

/-- Literal datatype tags produced by `format_date_for_xsd`
(`XSD.date` / `XSD.gYear`). -/
inductive XsdTag where
  | date
  | gYear
deriving DecidableEq, Repr

def digitsToNat (l : List Char) : Nat :=
  l.foldl (fun a c => a * 10 + (c.toNat - 48)) 0

def isLeap (y : Nat) : Bool :=
  (y % 4 == 0 && y % 100 != 0) || y % 400 == 0

def daysInMonth (y m : Nat) : Nat :=
  if m == 2 then (if isLeap y then 29 else 28)
  else if m == 4 || m == 6 || m == 9 || m == 11 then 30
  else 31

/-- Calendar validity as enforced by `datetime.strptime(_, "%Y%m%d")`:
year 1..9999, month 1..12, day within the month (leap years included). -/
def validYMD (y m d : Nat) : Bool :=
  decide (1 ≤ y ∧ y ≤ 9999 ∧ 1 ≤ m ∧ m ≤ 12 ∧ 1 ≤ d ∧ d ≤ daysInMonth y m)

/-- Tail of Python's `int()` literal syntax: digits optionally separated by
single underscores (no leading/trailing underscore). -/
def intTail : List Char → Bool
  | [] => true
  | c :: rest =>
    if c = '_' then
      match rest with
      | [] => false
      | c2 :: rs => c2.isDigit && intTail rs
    else c.isDigit && intTail rest

/-- Body of Python's `int()` literal syntax (after sign removal). -/
def intDigitsOk : List Char → Bool
  | [] => false
  | c :: rest => c.isDigit && intTail rest

/-- Python `int(s)` acceptance: strip whitespace, optional sign, then an
underscore-separated digit string. -/
def pyIntAccepts (s : String) : Bool :=
  match stripList s.toList with
  | [] => false
  | c :: rest => if c = '+' || c = '-' then intDigitsOk rest else intDigitsOk (c :: rest)

/-- `format_date_for_xsd` (script.py:49-61, script1.py:57-75): an 8-character
value must parse with `strptime("%Y%m%d")` (all digits, valid calendar date)
and is re-emitted as `YYYY-MM-DD` tagged `XSD.date`; a 4-character value must
parse with `int()` and is returned unchanged tagged `XSD.gYear`; anything
else yields `(None, None)` (here `none`). -/
def format_date_for_xsd (s : String) : Option (String × XsdTag) :=
  if s.length == 0 then none
  else if s.length == 8 then
    let l := s.toList
    if l.all Char.isDigit then
      let y := digitsToNat (l.take 4)
      let m := digitsToNat ((l.drop 4).take 2)
      let d := digitsToNat (l.drop 6)
      if validYMD y m d then
        some ((l.take 4 ++ '-' :: ((l.drop 4).take 2 ++ '-' :: l.drop 6)).asString, XsdTag.date)
      else none
    else none
  else if s.length == 4 then
    if pyIntAccepts s then some (s, XsdTag.gYear) else none
  else none

/-! ### C7 / C8: the Date Normalizer contracts -/

theorem digit_not_space {c : Char} (h : c.isDigit = true) : pyIsSpace c = false := by
  cases hs : pyIsSpace c with
  | false => rfl
  | true =>
    exfalso
    simp only [pyIsSpace, Bool.or_eq_true, beq_iff_eq] at hs
    rcases hs with ((((h1 | h1) | h1) | h1) | h1) | h1 <;> subst h1 <;>
      exact absurd h (by decide)

theorem stripList_of_all_digits {l : List Char} (h : ∀ c ∈ l, c.isDigit = true) :
    stripList l = l :=
  stripList_eq_self (fun c hc => digit_not_space (h c hc))

theorem intTail_of_digits {l : List Char} (h : ∀ c ∈ l, c.isDigit = true) :
    intTail l = true := by
  induction l with
  | nil => rfl
  | cons c rest ih =>
    have hc := h c (List.mem_cons_self _ _)
    have hne : c ≠ '_' := by intro he; subst he; exact absurd hc (by decide)
    unfold intTail
    rw [if_neg hne, hc, ih (fun x hx => h x (List.mem_cons_of_mem _ hx))]
    rfl

theorem pyIntAccepts_of_digits {l : List Char} (hne : l ≠ [])
    (h : ∀ c ∈ l, c.isDigit = true) : pyIntAccepts l.asString = true := by
  unfold pyIntAccepts
  rw [toList_asString, stripList_of_all_digits h]
  cases l with
  | nil => exact absurd rfl hne
  | cons c rest =>
    have hc := h c (List.mem_cons_self _ _)
    have hplus : c ≠ '+' := by intro he; subst he; exact absurd hc (by decide)
    have hminus : c ≠ '-' := by intro he; subst he; exact absurd hc (by decide)
    simp [hplus, hminus, intDigitsOk, hc,
      intTail_of_digits (fun x hx => h x (List.mem_cons_of_mem _ hx))]

theorem length_asString (l : List Char) : (l.asString).length = l.length := rfl

/-- C7: `format_date_for_xsd` (script.py:49-61, script1.py:57-75) maps a valid
8-digit date to its dashed `YYYY-MM-DD` form tagged `date`, rejects 8-digit
strings that fail calendar validation (such as February 30), and maps any
4-digit fragment to itself tagged `year`. -/
theorem format_date_for_xsd_spec :
    format_date_for_xsd "20230115" = some ("2023-01-15", XsdTag.date)
    ∧ format_date_for_xsd "20230230" = none
    ∧ (∀ l : List Char, l.length = 8 → l.all Char.isDigit = true →
        format_date_for_xsd l.asString =
          if validYMD (digitsToNat (l.take 4)) (digitsToNat ((l.drop 4).take 2))
              (digitsToNat (l.drop 6)) then
            some ((l.take 4 ++ '-' :: ((l.drop 4).take 2 ++ '-' :: l.drop 6)).asString,
              XsdTag.date)
          else none)
    ∧ (∀ l : List Char, l.length = 4 → l.all Char.isDigit = true →
        format_date_for_xsd l.asString = some (l.asString, XsdTag.gYear)) := by
  refine ⟨by decide, by decide, ?_, ?_⟩
  · intro l hlen hdig
    simp only [format_date_for_xsd, length_asString, hlen, toList_asString, hdig]
    norm_num
  · intro l hlen hdig
    have hne : l ≠ [] := by intro he; subst he; simp at hlen
    simp only [format_date_for_xsd, length_asString, hlen,
      pyIntAccepts_of_digits hne (fun c hc => (List.all_eq_true.mp hdig) c hc)]
    norm_num

/-- Witness for C7: the general 8-digit and 4-digit cases applied at the
concrete fragments `"20231301"` (month 13, invalid), `"20230115"` and
`"2020"`. -/
theorem format_date_for_xsd_spec_witness :
    format_date_for_xsd ("20231301".toList).asString = none
    ∧ format_date_for_xsd ("2020".toList).asString = some (("2020".toList).asString, XsdTag.gYear) := by
  constructor
  · have h := format_date_for_xsd_spec.2.2.1 "20231301".toList (by decide) (by decide)
    rw [h]; decide
  · exact format_date_for_xsd_spec.2.2.2 "2020".toList (by decide) (by decide)

theorem no_space_in_range_list {a b : List Char}
    (hda : ∀ c ∈ a, c.isDigit = true) (hdb : ∀ c ∈ b, c.isDigit = true) :
    ∀ c ∈ a ++ '-' :: b, pyIsSpace c = false := by
  intro c hc
  rcases List.mem_append.mp hc with h | h
  · exact digit_not_space (hda c h)
  · rcases List.mem_cons.mp h with h | h
    · subst h; decide
    · exact digit_not_space (hdb c h)

theorem data_asString (l : List Char) : (l.asString).data = l := rfl

theorem toList_eq_data (s : String) : s.toList = s.data := rfl

theorem drop_after_block {a b : List Char} (ha : a.length = 8) :
    (a ++ '-' :: b).drop 9 = b := by
  have h8 : (a ++ '-' :: b).drop 8 = '-' :: b := by
    rw [← ha]; exact List.drop_left a ('-' :: b)
  have h := congrArg (List.drop 1) h8
  simpa [List.drop_drop] using h

theorem drop_after_block4 {a b : List Char} (ha : a.length = 4) :
    (a ++ '-' :: b).drop 5 = b := by
  have h4 : (a ++ '-' :: b).drop 4 = '-' :: b := by
    rw [← ha]; exact List.drop_left a ('-' :: b)
  have h := congrArg (List.drop 1) h4
  simpa [List.drop_drop] using h

/-- C8: `parse_normalized_dates` (script.py:36-47, script1.py:31-55)
recognizes exactly the four shapes `YYYYMMDD-YYYYMMDD`, `YYYY-YYYY`,
`YYYYMMDD` and `YYYY` — the range shapes return `(start, end)`, the single
shapes return `(value, none)` — and every other input yields
`(none, none)` rather than an error. -/
theorem parse_normalized_dates_spec :
    (∀ a b : List Char, a.length = 8 → b.length = 8 →
      (∀ c ∈ a, c.isDigit = true) → (∀ c ∈ b, c.isDigit = true) →
      parse_normalized_dates ((a ++ '-' :: b).asString) = (some a.asString, some b.asString))
    ∧ (∀ a b : List Char, a.length = 4 → b.length = 4 →
      (∀ c ∈ a, c.isDigit = true) → (∀ c ∈ b, c.isDigit = true) →
      parse_normalized_dates ((a ++ '-' :: b).asString) = (some a.asString, some b.asString))
    ∧ (∀ a : List Char, a.length = 8 → (∀ c ∈ a, c.isDigit = true) →
      parse_normalized_dates a.asString = (some a.asString, none))
    ∧ (∀ a : List Char, a.length = 4 → (∀ c ∈ a, c.isDigit = true) →
      parse_normalized_dates a.asString = (some a.asString, none))
    ∧ (∀ s : String, isDateShape (stripList s.toList) = false →
      parse_normalized_dates s = (none, none))
    ∧ parse_normalized_dates "not-a-date" = (none, none) := by
  refine ⟨?_, ?_, ?_, ?_, ?_, by decide⟩
  · intro a b ha hb hda hdb
    have hstrip : stripList (a ++ '-' :: b) = a ++ '-' :: b :=
      stripList_eq_self (no_space_in_range_list hda hdb)
    have hlen : (a ++ '-' :: b).length = 17 := by simp [ha, hb]
    have htake : (a ++ '-' :: b).take 8 = a := by rw [← ha]; exact List.take_left a _
    have hdropdash : (a ++ '-' :: b).drop 8 = '-' :: b := by
      rw [← ha]; exact List.drop_left a _
    have hdrop : (a ++ '-' :: b).drop 9 = b := drop_after_block ha
    have hshape : shapeRangeFull (a ++ '-' :: b) = true := by
      simp [shapeRangeFull, hlen, htake, hdropdash, hdrop,
        List.all_eq_true.mpr hda, List.all_eq_true.mpr hdb]
    simp [parse_normalized_dates, toList_eq_data, data_asString, hstrip, hshape, htake, hdrop]
  · intro a b ha hb hda hdb
    have hstrip : stripList (a ++ '-' :: b) = a ++ '-' :: b :=
      stripList_eq_self (no_space_in_range_list hda hdb)
    have hlen : (a ++ '-' :: b).length = 9 := by simp [ha, hb]
    have htake : (a ++ '-' :: b).take 4 = a := by rw [← ha]; exact List.take_left a _
    have hdropdash : (a ++ '-' :: b).drop 4 = '-' :: b := by
      rw [← ha]; exact List.drop_left a _
    have hdrop : (a ++ '-' :: b).drop 5 = b := drop_after_block4 ha
    have hshape1 : shapeRangeFull (a ++ '-' :: b) = false := by
      simp [shapeRangeFull, hlen]
    have hshape2 : shapeRangeYear (a ++ '-' :: b) = true := by
      simp [shapeRangeYear, hlen, htake, hdropdash, hdrop,
        List.all_eq_true.mpr hda, List.all_eq_true.mpr hdb]
    simp [parse_normalized_dates, toList_eq_data, data_asString, hstrip, hshape1, hshape2, htake, hdrop]
  · intro a ha hda
    have hstrip : stripList a = a := stripList_of_all_digits hda
    have hshape1 : shapeRangeFull a = false := by simp [shapeRangeFull, ha]
    have hshape2 : shapeRangeYear a = false := by simp [shapeRangeYear, ha]
    have hshape3 : shapeSingleFull a = true := by
      simp [shapeSingleFull, ha, List.all_eq_true.mpr hda]
    simp [parse_normalized_dates, toList_eq_data, data_asString, hstrip, hshape1, hshape2, hshape3]
  · intro a ha hda
    have hstrip : stripList a = a := stripList_of_all_digits hda
    have hshape1 : shapeRangeFull a = false := by simp [shapeRangeFull, ha]
    have hshape2 : shapeRangeYear a = false := by simp [shapeRangeYear, ha]
    have hshape3 : shapeSingleFull a = false := by simp [shapeSingleFull, ha]
    have hshape4 : shapeSingleYear a = true := by
      simp [shapeSingleYear, ha, List.all_eq_true.mpr hda]
    simp [parse_normalized_dates, toList_eq_data, data_asString, hstrip, hshape1, hshape2, hshape3, hshape4]
  · intro s h
    simp only [isDateShape, Bool.or_eq_false_iff, toList_eq_data] at h
    simp [parse_normalized_dates, toList_eq_data, h.1.1.1, h.1.1.2, h.1.2, h.2]

/-- Witness for C8: the four recognized shapes and the reject case applied at
the concrete inputs from the spec. -/
theorem parse_normalized_dates_spec_witness :
    parse_normalized_dates (("20200101".toList ++ '-' :: "20201231".toList).asString)
      = (some ("20200101".toList).asString, some ("20201231".toList).asString)
    ∧ parse_normalized_dates (("2020".toList).asString) = (some ("2020".toList).asString, none)
    ∧ parse_normalized_dates "hello world" = (none, none) := by
  refine ⟨?_, ?_, ?_⟩
  · exact parse_normalized_dates_spec.1 "20200101".toList "20201231".toList
      (by decide) (by decide) (by decide) (by decide)
  · exact parse_normalized_dates_spec.2.2.2.1 "2020".toList (by decide) (by decide)
  · exact parse_normalized_dates_spec.2.2.2.2.1 "hello world" (by decide)

/-! ## Graph Accumulator

An rdflib `Graph` is a set of triples; `Graph.add` is idempotent.  Subjects
and predicates of the triples the engine produces are URI strings; objects
are either URI references or literals with an optional datatype. -/

inductive Term where
  | uri : String → Term
  | lit : String → Option String → Term
deriving DecidableEq, Repr

abbrev Triple := String × String × Term

abbrev Graph := List Triple

/-- `Graph.add`: set-semantics insertion (a no-op on an existing triple). -/
def gadd (g : Graph) (t : Triple) : Graph :=
  if t ∈ g then g else t :: g

def gaddMany (g : Graph) (ts : List Triple) : Graph :=
  ts.foldl gadd g

/-- `Graph.value(s, p)`: some object of a triple `(s, p, _)`, if any. -/
def gvalue (g : Graph) (s p : String) : Option Term :=
  (g.find? (fun t => decide (t.1 = s ∧ t.2.1 = p))).map (fun t => t.2.2)

theorem gadd_mem_self (g : Graph) (t : Triple) : t ∈ gadd g t := by
  unfold gadd
  split
  · assumption
  · exact List.mem_cons_self _ _

theorem gadd_mono {g : Graph} {t : Triple} (t' : Triple) (h : t ∈ g) :
    t ∈ gadd g t' := by
  unfold gadd
  split
  · exact h
  · exact List.mem_cons_of_mem _ h

theorem gaddMany_mono {g : Graph} {t : Triple} (ts : List Triple) (h : t ∈ g) :
    t ∈ gaddMany g ts := by
  induction ts generalizing g with
  | nil => exact h
  | cons t' rest ih => exact ih (gadd_mono t' h)

/-! ## URI vocabulary (the namespaces bound in both scripts) -/

def BASE_NS : String := "http://example.org/"

def RDF_TYPE : String := "http://www.w3.org/1999/02/22-rdf-syntax-ns#type"

def RDFS_LABEL : String := "http://www.w3.org/2000/01/rdf-schema#label"

def OWL_SAMEAS : String := "http://www.w3.org/2002/07/owl#sameAs"

def XSD_STRING : String := "http://www.w3.org/2001/XMLSchema#string"

def XSD_DATE : String := "http://www.w3.org/2001/XMLSchema#date"

def XSD_GYEAR : String := "http://www.w3.org/2001/XMLSchema#gYear"

def XSD_DECIMAL : String := "http://www.w3.org/2001/XMLSchema#decimal"

def GN_FCLASS : String := "http://www.geonames.org/ontology#featureClass"

def GN_FCODE : String := "http://www.geonames.org/ontology#featureCode"

def WGS_LAT : String := "http://www.w3.org/2003/01/geo/wgs84_pos#lat"

def WGS_LONG : String := "http://www.w3.org/2003/01/geo/wgs84_pos#long"

/-- `ns_rico[n]` with `prefixes["rico"] = Namespace(BASE_NS + "rico#")`. -/
def ricoU (n : String) : String := BASE_NS ++ "rico#" ++ n

def xsdTagUri : XsdTag → String
  | XsdTag.date => XSD_DATE
  | XsdTag.gYear => XSD_GYEAR

/-- Subject URIs: `URIRef(f"{BASE_NS}{make_safe_uri_label(subj_val)}")`. -/
def subjUri (subjVal : String) : String := BASE_NS ++ make_safe_uri_label subjVal

/-! ## Entity materialization (the creation-guard pattern)

Every entity-producing branch of both scripts follows the same shape
(script.py:426-428 and 534-536, script1.py:424-427): build a canonical URI
`BASE_NS + path + "/" + safeLabel`, and write the defining triples (the
`rdf:type` triple, the `rdfs:label` triple, plus branch-specific extras)
only if the `rdf:type` triple is not yet in the graph. -/

inductive EntityKind where
  | placeK
  | dateK
  | agentK
  | personK
  | entK
  | identK
  | titleK
deriving DecidableEq, Repr

/-- URI path segment per entity kind: `place/`, `date/`, `agent/`,
`person/`, `entity/` (script1.py's agent path), `identifier/`, `title/`. -/
def kindPath : EntityKind → String
  | EntityKind.placeK => "place"
  | EntityKind.dateK => "date"
  | EntityKind.agentK => "agent"
  | EntityKind.personK => "person"
  | EntityKind.entK => "entity"
  | EntityKind.identK => "identifier"
  | EntityKind.titleK => "title"

/-- `rdf:type` object per entity kind (`rico:Place`, `rico:Date`, ...). -/
def kindClass : EntityKind → String
  | EntityKind.placeK => ricoU "Place"
  | EntityKind.dateK => ricoU "Date"
  | EntityKind.agentK => ricoU "Agent"
  | EntityKind.personK => ricoU "Person"
  | EntityKind.entK => ricoU "Agent"
  | EntityKind.identK => ricoU "Identifier"
  | EntityKind.titleK => ricoU "Title"

def entityUriOf (k : EntityKind) (slbl : String) : String :=
  BASE_NS ++ kindPath k ++ "/" ++ slbl

/-- The guarded creation common to all entity-producing branches: if the
entity's type triple is already present the graph is unchanged; otherwise
the type triple, the label triple, and the branch-specific extra triples are
inserted. -/
def materialize (g : Graph) (k : EntityKind) (slbl lbl : String)
    (extras : List Triple) : Graph :=
  if (entityUriOf k slbl, RDF_TYPE, Term.uri (kindClass k)) ∈ g then g
  else
    gaddMany g ((entityUriOf k slbl, RDF_TYPE, Term.uri (kindClass k)) ::
      (entityUriOf k slbl, RDFS_LABEL, Term.lit lbl none) :: extras)

/-! ### Canonical identifiers are injective across entity kinds -/

theorem data_append (a b : String) : (a ++ b).data = a.data ++ b.data := by
  cases a; cases b; rfl

theorem slashfree_split {xs ys as bs : List Char}
    (hx : ∀ c ∈ xs, c ≠ '/') (hy : ∀ c ∈ ys, c ≠ '/')
    (h : xs ++ '/' :: as = ys ++ '/' :: bs) : xs = ys ∧ as = bs := by
  induction xs generalizing ys with
  | nil =>
    cases ys with
    | nil => simpa using h
    | cons y ys' =>
      exfalso
      have := (List.cons.injEq _ _ _ _).mp h
      exact hy y (List.mem_cons_self _ _) this.1.symm
  | cons x xs' ih =>
    cases ys with
    | nil =>
      exfalso
      have := (List.cons.injEq _ _ _ _).mp h
      exact hx x (List.mem_cons_self _ _) this.1
    | cons y ys' =>
      have hinj := (List.cons.injEq _ _ _ _).mp h
      have := ih (fun c hc => hx c (List.mem_cons_of_mem _ hc))
        (fun c hc => hy c (List.mem_cons_of_mem _ hc)) hinj.2
      exact ⟨by rw [hinj.1, this.1], this.2⟩

theorem kindPath_slashfree (k : EntityKind) : ∀ c ∈ (kindPath k).data, c ≠ '/' := by
  cases k <;> decide

theorem string_ext {s t : String} (h : s.data = t.data) : s = t := by
  cases s with
  | mk d1 =>
    cases t with
    | mk d2 => rw [show d1 = d2 from h]

theorem slash_data : ("/" : String).data = ['/'] := rfl

theorem entityUriOf_inj {k1 k2 : EntityKind} {l1 l2 : String}
    (h : entityUriOf k1 l1 = entityUriOf k2 l2) : k1 = k2 ∧ l1 = l2 := by
  have hd := congrArg String.data h
  simp only [entityUriOf, data_append, slash_data, List.append_assoc,
    List.singleton_append] at hd
  have hd' := List.append_cancel_left hd
  have hsplit := slashfree_split (kindPath_slashfree k1) (kindPath_slashfree k2) hd'
  refine ⟨?_, string_ext hsplit.2⟩
  have hpath : kindPath k1 = kindPath k2 := string_ext hsplit.1
  revert hpath
  cases k1 <;> cases k2 <;> intro hpath <;> first
    | rfl
    | exact absurd (congrArg String.data hpath) (by decide)

/-! ### C6: defining triples are written at most once per canonical id

A run of the engine, as far as entity creation is concerned, is a sequence
of guarded materializations (`mat`) interleaved with plain attribute /
relationship insertions (`add`).  `countFirings` counts the steps at which
the guard for a given canonical identifier passes, i.e. the steps at which
its defining triples are written. -/

inductive RunEvent where
  | mat (k : EntityKind) (slbl lbl : String) (extras : List Triple)
  | add (t : Triple)

def runStep (g : Graph) : RunEvent → Graph
  | RunEvent.mat k slbl lbl extras => materialize g k slbl lbl extras
  | RunEvent.add t => gadd g t

def firesAt (g : Graph) (ev : RunEvent) (u : String) : Bool :=
  match ev with
  | RunEvent.mat k slbl _ _ =>
    decide (entityUriOf k slbl = u
      ∧ (entityUriOf k slbl, RDF_TYPE, Term.uri (kindClass k)) ∉ g)
  | RunEvent.add _ => false

def countFirings (g : Graph) (es : List RunEvent) (u : String) : Nat :=
  match es with
  | [] => 0
  | ev :: rest =>
    (if firesAt g ev u then 1 else 0) + countFirings (runStep g ev) rest u

theorem gaddMany_cons (g : Graph) (t : Triple) (ts : List Triple) :
    gaddMany g (t :: ts) = gaddMany (gadd g t) ts := rfl

theorem runStep_mono {g : Graph} {t : Triple} (ev : RunEvent) (h : t ∈ g) :
    t ∈ runStep g ev := by
  cases ev with
  | mat k slbl lbl extras =>
    show t ∈ materialize g k slbl lbl extras
    unfold materialize
    split
    · exact h
    · exact gaddMany_mono _ h
  | add t' =>
    show t ∈ gadd g t'
    exact gadd_mono t' h

theorem materialize_fires_mem {g : Graph} {k : EntityKind} {slbl lbl : String}
    {extras : List Triple}
    (h : (entityUriOf k slbl, RDF_TYPE, Term.uri (kindClass k)) ∉ g) :
    (entityUriOf k slbl, RDF_TYPE, Term.uri (kindClass k))
      ∈ materialize g k slbl lbl extras := by
  unfold materialize
  rw [if_neg h, gaddMany_cons]
  exact gaddMany_mono _ (gadd_mem_self _ _)

theorem countFirings_zero_of_mem {k : EntityKind} {slbl : String}
    (es : List RunEvent) (g : Graph)
    (h : (entityUriOf k slbl, RDF_TYPE, Term.uri (kindClass k)) ∈ g) :
    countFirings g es (entityUriOf k slbl) = 0 := by
  induction es generalizing g with
  | nil => rfl
  | cons ev rest ih =>
    have hfire : firesAt g ev (entityUriOf k slbl) = false := by
      cases ev with
      | add t => rfl
      | mat k' slbl' lbl' extras' =>
        simp only [firesAt, decide_eq_false_iff_not]
        intro hcon
        rcases entityUriOf_inj hcon.1 with ⟨hk, hl⟩
        subst hk
        subst hl
        exact hcon.2 h
    unfold countFirings
    rw [hfire]
    simpa using ih (runStep g ev) (runStep_mono ev h)

theorem countFirings_le_one (g : Graph) (es : List RunEvent)
    (k : EntityKind) (slbl : String) :
    countFirings g es (entityUriOf k slbl) ≤ 1 := by
  induction es generalizing g with
  | nil => exact Nat.zero_le 1
  | cons ev rest ih =>
    unfold countFirings
    cases ev with
    | add t =>
      have hfa : firesAt g (RunEvent.add t) (entityUriOf k slbl) = false := rfl
      rw [hfa]
      simpa using ih (runStep g (RunEvent.add t))
    | mat k' slbl' lbl' extras' =>
      by_cases hf : firesAt g (RunEvent.mat k' slbl' lbl' extras') (entityUriOf k slbl) = true
      · rw [hf]
        simp only [firesAt, decide_eq_true_eq] at hf
        rw [← hf.1]
        have hmem := @materialize_fires_mem g k' slbl' lbl' extras' hf.2
        have hzero := countFirings_zero_of_mem rest
          (runStep g (RunEvent.mat k' slbl' lbl' extras'))
          (by simpa [runStep] using hmem)
        simp [hzero]
      · rw [Bool.not_eq_true] at hf
        rw [hf]
        simpa using ih (runStep g (RunEvent.mat k' slbl' lbl' extras'))

/-- C6: throughout a run — any sequence of guarded entity materializations
and plain attribute/relationship insertions starting from the empty graph —
the defining triples (type + label) of any canonical entity identifier are
written at most once; once the guard has fired for an identifier, every
later encounter leaves only attribute or relationship additions
(script.py:426-428, script.py:534-536, script1.py:424-427). -/
theorem defining_triples_at_most_once (es : List RunEvent)
    (k : EntityKind) (slbl : String) :
    countFirings [] es (entityUriOf k slbl) ≤ 1 :=
  countFirings_le_one [] es k slbl

/-! ## The date-boundary branch (C2, C4)

Both scripts dispatch on the rule predicate among `rico:hasBeginningDate`,
`rico:hasEndDate` and `rico:hasCreationDate`, parse the object value with
`parse_normalized_dates` and pick the URI fragment — or skip the row —
according to whether a range is present (script.py:409-420,
script1.py:386-412). -/

inductive DatePred where
  | beginD
  | endD
  | creationD
deriving DecidableEq, Repr

def datePredUri : DatePred → String
  | DatePred.beginD => ricoU "hasBeginningDate"
  | DatePred.endD => ricoU "hasEndDate"
  | DatePred.creationD => ricoU "hasCreationDate"

def RICO_NORMALIZED_DATE : String := ricoU "normalizedDateValue"

def RICO_EXPRESSED_DATE : String := ricoU "expressedDate"

/-- Fragment selection (script.py:409-413, script1.py:386-403): a begin/end
predicate keeps the range start/end and skips singles; the creation-date
predicate keeps the single value and skips ranges. `none` means the row is
skipped (`continue`). -/
def date_uri_part (p : DatePred) (v : String) : Option String :=
  let parsed := parse_normalized_dates v
  match p with
  | DatePred.beginD => if parsed.2.isSome then parsed.1 else none
  | DatePred.endD => if parsed.2.isSome then parsed.2 else none
  | DatePred.creationD => if parsed.2.isSome then none else parsed.1

/-- The Date entity URI in script.py (line 414-416): built from the date
fragment alone — the owning subject does not appear. -/
def dateEntityUriScript (part : String) : String :=
  entityUriOf EntityKind.dateK (make_safe_uri_label part)

/-- The Date entity URI in script1.py (lines 405-408): built from
`f"{subj_val}_{date_uri_part}"`, so dates are scoped per owning subject. -/
def dateEntityUriScript1 (subjVal part : String) : String :=
  entityUriOf EntityKind.dateK (make_safe_uri_label (subjVal ++ "_" ++ part))

/-- Triples added inside the Date creation guard besides type and label:
the normalized value on the entity and (as a shortcut) on the record, and —
on the documento sheet — the expressed date from the row's `data` column
(script.py:429-438, script1.py:429-447). -/
def dateExtras (u su : String) (part : String) (sheetLower : String)
    (expressedField : Option String) : List Triple :=
  (match format_date_for_xsd part with
   | some (v, tag) =>
     [(u, RICO_NORMALIZED_DATE, Term.lit v (some (xsdTagUri tag))),
      (su, RICO_NORMALIZED_DATE, Term.lit v (some (xsdTagUri tag)))]
   | none => [])
  ++ (if sheetLower = "documento" then
        match expressedField with
        | some ev =>
          [(u, RICO_EXPRESSED_DATE, Term.lit (pyStrip ev) (some XSD_STRING)),
           (su, RICO_EXPRESSED_DATE, Term.lit (pyStrip ev) (some XSD_STRING))]
        | none => []
      else [])

/-- The whole date branch of script.py (lines 406-433 and 553-554) for one
(rule, row) pair: pick the fragment, materialize the (globally shared) Date
entity under the creation guard, then add the primary triple. -/
def dateStepScript (g : Graph) (sheetLower : String)
    (expressedField : Option String) (p : DatePred) (subjVal objVal : String) : Graph :=
  match date_uri_part p objVal with
  | none => g
  | some part =>
    let slbl := make_safe_uri_label part
    let u := entityUriOf EntityKind.dateK slbl
    let su := subjUri subjVal
    gadd (materialize g EntityKind.dateK slbl part
      (dateExtras u su part sheetLower expressedField))
      (su, datePredUri p, Term.uri u)

/-- The whole date branch of script1.py (lines 382-447 and 507) for one
(rule, row) pair: same skip logic, but the Date entity URI embeds the
subject value, and the creation guard additionally writes a `rico:name`
triple (line 427). -/
def dateStepScript1 (g : Graph) (sheetLower : String)
    (expressedField : Option String) (p : DatePred) (subjVal objVal : String) : Graph :=
  match date_uri_part p objVal with
  | none => g
  | some part =>
    let slbl := make_safe_uri_label (subjVal ++ "_" ++ part)
    let u := entityUriOf EntityKind.dateK slbl
    let su := subjUri subjVal
    gadd (materialize g EntityKind.dateK slbl part
      ((u, ricoU "name", Term.lit part (some XSD_STRING)) ::
        dateExtras u su part sheetLower expressedField))
      (su, datePredUri p, Term.uri u)

/-- The primary date triple the engine emits for one predicate application,
`none` when the row is skipped (URI form of script1.py; script.py differs
only in the entity URI). -/
def emittedDatePrimary (subjVal : String) (p : DatePred) (v : String) : Option Triple :=
  (date_uri_part p v).map
    (fun part => (subjUri subjVal, datePredUri p, Term.uri (dateEntityUriScript1 subjVal part)))

theorem parse_normalized_dates_cases (v : String) :
    parse_normalized_dates v = (none, none)
    ∨ (∃ a, parse_normalized_dates v = (some a, none))
    ∨ (∃ a b, parse_normalized_dates v = (some a, some b)) := by
  simp only [parse_normalized_dates]
  split
  · exact Or.inr (Or.inr ⟨_, _, rfl⟩)
  · split
    · exact Or.inr (Or.inr ⟨_, _, rfl⟩)
    · split
      · exact Or.inr (Or.inl ⟨_, rfl⟩)
      · split
        · exact Or.inr (Or.inl ⟨_, rfl⟩)
        · exact Or.inl rfl

/-- C4: for every source date value under a date-boundary predicate, a value
that parses as a range yields a begins triple and an ends triple and no
creation-date triple; a value that parses as a single date yields only the
creation-date triple; the range triples and the single-date triple are never
both emitted for the same value (script.py:409-420, script1.py:386-412). -/
theorem date_range_single_emission (s v : String) :
    ((parse_normalized_dates v).2.isSome = true →
      (emittedDatePrimary s DatePred.beginD v).isSome = true
      ∧ (emittedDatePrimary s DatePred.endD v).isSome = true
      ∧ emittedDatePrimary s DatePred.creationD v = none)
    ∧ ((parse_normalized_dates v).1.isSome = true → (parse_normalized_dates v).2 = none →
      emittedDatePrimary s DatePred.beginD v = none
      ∧ emittedDatePrimary s DatePred.endD v = none
      ∧ (emittedDatePrimary s DatePred.creationD v).isSome = true)
    ∧ ¬((emittedDatePrimary s DatePred.creationD v).isSome = true
      ∧ ((emittedDatePrimary s DatePred.beginD v).isSome = true
        ∨ (emittedDatePrimary s DatePred.endD v).isSome = true)) := by
  rcases parse_normalized_dates_cases v with h | ⟨a, h⟩ | ⟨a, b, h⟩ <;>
    simp [emittedDatePrimary, date_uri_part, h]

/-- Witness for C4: the range `"1920-1930"` emits begin and end but not
creation; the single `"1920"` emits only creation. -/
theorem date_range_single_emission_witness :
    ((emittedDatePrimary "R1" DatePred.beginD "1920-1930").isSome = true
      ∧ (emittedDatePrimary "R1" DatePred.endD "1920-1930").isSome = true
      ∧ emittedDatePrimary "R1" DatePred.creationD "1920-1930" = none)
    ∧ (emittedDatePrimary "R1" DatePred.beginD "1920" = none
      ∧ emittedDatePrimary "R1" DatePred.endD "1920" = none
      ∧ (emittedDatePrimary "R1" DatePred.creationD "1920").isSome = true) := by
  constructor
  · exact (date_range_single_emission "R1" "1920-1930").1 (by decide)
  · exact (date_range_single_emission "R1" "1920").2.1 (by decide) (by decide)

/-! ### C2: per-subject vs global scoping of Date entities -/

def countDateType (g : Graph) : Nat :=
  (g.filter (fun t => decide (t.2.1 = RDF_TYPE ∧ t.2.2 = Term.uri (ricoU "Date")))).length

/-- Two records `R1`, `R2`, both carrying the creation date `"1920"`,
processed by the script.py date branch. -/
def c2ScriptRun : Graph :=
  dateStepScript (dateStepScript [] "fascicolo" none DatePred.creationD "R1" "1920")
    "fascicolo" none DatePred.creationD "R2" "1920"

/-- The same two records processed by the script1.py date branch. -/
def c2Script1Run : Graph :=
  dateStepScript1 (dateStepScript1 [] "fascicolo" none DatePred.creationD "R1" "1920")
    "fascicolo" none DatePred.creationD "R2" "1920"

/-- C2 counterexample: in script.py (lines 414-416) the Date URI is built
from the date fragment alone (`unique_date_string = date_uri_part`), so the
same calendar date `"1920"` on the two distinct records `R1` and `R2` yields
one single Date entity that both records point to — not two distinct
per-subject entities as the claim states for every variant. -/
theorem date_entity_per_subject_counterexample :
    countDateType c2ScriptRun = 1
    ∧ (subjUri "R1", datePredUri DatePred.creationD,
        Term.uri (dateEntityUriScript "1920")) ∈ c2ScriptRun
    ∧ (subjUri "R2", datePredUri DatePred.creationD,
        Term.uri (dateEntityUriScript "1920")) ∈ c2ScriptRun := by
  refine ⟨by decide, by decide, by decide⟩

/-- C2 amended: only the script1.py variant derives the Date identifier from
the safe label of `subjectId + "_" + dateFragment`; there the date `"1920"`
on records `R1` and `R2` yields two distinct Date entities, each record
pointing to its own, while the script.py variant keeps one globally shared
Date entity. -/
theorem date_entity_scoping_by_variant :
    dateEntityUriScript1 "R1" "1920" ≠ dateEntityUriScript1 "R2" "1920"
    ∧ countDateType c2Script1Run = 2
    ∧ (subjUri "R1", datePredUri DatePred.creationD,
        Term.uri (dateEntityUriScript1 "R1" "1920")) ∈ c2Script1Run
    ∧ (subjUri "R2", datePredUri DatePred.creationD,
        Term.uri (dateEntityUriScript1 "R2" "1920")) ∈ c2Script1Run
    ∧ countDateType c2ScriptRun = 1 := by
  refine ⟨by decide, by decide, by decide, by decide, by decide⟩

/-! ## Person vs Agent disambiguation (C5)

Both the documento branch (script.py:299-344) and the fascicolo branch
(script.py:349-393) read an auxiliary VIAF field from the row: the entity is
a `rico:Person` with an `owl:sameAs` link exactly when the stripped field is
non-empty, is not the string `"nan"`, and ends in a digit run (the
`re.search(r"(\d+)$", ...)` match that supplies the VIAF id). -/

/-- `re.search(r"(\d+)$", s)`: the maximal trailing digit run, if any. -/
def viafTrailingDigits (s : String) : Option String :=
  let tr := (s.toList.reverse.takeWhile Char.isDigit).reverse
  if tr.isEmpty then none else some tr.asString

/-- The `is_person` / `external_link` decision (script.py:313-322 and
363-371): `some id` means Person with VIAF id `id`, `none` means Agent.
A `none` field models `pd.isna(viaf_code)`. -/
def personCheck (viafField : Option String) : Option String :=
  match viafField with
  | none => none
  | some v =>
    let vs := pyStrip v
    if vs = "" then none
    else if (vs.toList.map Char.toLower).asString = "nan" then none
    else viafTrailingDigits vs

/-- The agent materialization of the documento branch (script.py:324-344):
type and namespace follow the Person/Agent decision; inside the creation
guard the code writes type, label, `rico:hasOrHadName`, and — for a Person —
one `owl:sameAs` link to `http://viaf.org/viaf/{id}/`.  Returns the updated
graph and the object term for the primary triple. -/
def documentoAgentStep (g : Graph) (nameVal : String) (viafField : Option String) :
    Graph × Term :=
  match personCheck viafField with
  | some vid =>
    let slbl := make_safe_uri_label nameVal
    let u := entityUriOf EntityKind.personK slbl
    (materialize g EntityKind.personK slbl nameVal
      [(u, ricoU "hasOrHadName", Term.lit nameVal none),
       (u, OWL_SAMEAS, Term.uri ("http://viaf.org/viaf/" ++ vid ++ "/"))],
     Term.uri u)
  | none =>
    let slbl := make_safe_uri_label nameVal
    let u := entityUriOf EntityKind.agentK slbl
    (materialize g EntityKind.agentK slbl nameVal
      [(u, ricoU "hasOrHadName", Term.lit nameVal none)],
     Term.uri u)

def countSameAs (g : Graph) (u : String) : Nat :=
  (g.filter (fun t => decide (t.1 = u ∧ t.2.1 = OWL_SAMEAS))).length

/-- C5 counterexample: the VIAF field `"abc"` is present and non-empty, yet
the code types the entity `rico:Agent` with no equivalence link, because
`re.search(r"(\d+)$", "abc")` finds no trailing digits — presence and
non-emptiness alone do not make a Person. -/
theorem person_agent_nonnumeric_counterexample :
    pyStrip "abc" ≠ ""
    ∧ personCheck (some "abc") = none
    ∧ (entityUriOf EntityKind.agentK (make_safe_uri_label "Mario Rossi"), RDF_TYPE,
        Term.uri (ricoU "Agent")) ∈ (documentoAgentStep [] "Mario Rossi" (some "abc")).1
    ∧ (∀ t ∈ (documentoAgentStep [] "Mario Rossi" (some "abc")).1,
        t.2.1 ≠ OWL_SAMEAS ∧ t.2.2 ≠ Term.uri (ricoU "Person")) := by
  refine ⟨by decide, by decide, by decide, by decide⟩

/-- C5 amended: the entity is typed Person with exactly one `owl:sameAs`
link to `http://viaf.org/viaf/{id}/` precisely when the VIAF field passes
`personCheck` — its stripped value is non-empty, is not `"nan"`, and ends in
a digit run `id`; in every other case (including a present but non-numeric
field) the entity is typed Agent with no equivalence link
(script.py:299-344, script.py:349-393). -/
theorem person_agent_disambiguation_amended (name : String) (viaf : Option String) :
    (∀ vid, personCheck viaf = some vid →
      (documentoAgentStep [] name viaf).2
        = Term.uri (entityUriOf EntityKind.personK (make_safe_uri_label name))
      ∧ (entityUriOf EntityKind.personK (make_safe_uri_label name), RDF_TYPE,
          Term.uri (ricoU "Person")) ∈ (documentoAgentStep [] name viaf).1
      ∧ (entityUriOf EntityKind.personK (make_safe_uri_label name), OWL_SAMEAS,
          Term.uri ("http://viaf.org/viaf/" ++ vid ++ "/"))
          ∈ (documentoAgentStep [] name viaf).1
      ∧ countSameAs (documentoAgentStep [] name viaf).1
          (entityUriOf EntityKind.personK (make_safe_uri_label name)) = 1)
    ∧ (personCheck viaf = none →
      (documentoAgentStep [] name viaf).2
        = Term.uri (entityUriOf EntityKind.agentK (make_safe_uri_label name))
      ∧ (entityUriOf EntityKind.agentK (make_safe_uri_label name), RDF_TYPE,
          Term.uri (ricoU "Agent")) ∈ (documentoAgentStep [] name viaf).1
      ∧ countSameAs (documentoAgentStep [] name viaf).1
          (entityUriOf EntityKind.agentK (make_safe_uri_label name)) = 0) := by
  constructor
  · intro vid h
    simp only [documentoAgentStep, h]
    refine ⟨trivial, ?_, ?_, ?_⟩
    · simp [materialize, gaddMany, gadd, kindClass, RDF_TYPE, RDFS_LABEL, OWL_SAMEAS,
        ricoU, BASE_NS, List.foldl]
    · simp [materialize, gaddMany, gadd, kindClass, RDF_TYPE, RDFS_LABEL, OWL_SAMEAS,
        ricoU, BASE_NS, List.foldl]
    · simp [materialize, gaddMany, gadd, countSameAs, kindClass, RDF_TYPE, RDFS_LABEL,
        OWL_SAMEAS, ricoU, BASE_NS, List.foldl]
  · intro h
    simp only [documentoAgentStep, h]
    refine ⟨trivial, ?_, ?_⟩
    · simp [materialize, gaddMany, gadd, kindClass, RDF_TYPE, RDFS_LABEL, OWL_SAMEAS,
        ricoU, BASE_NS, List.foldl]
    · simp [materialize, gaddMany, gadd, countSameAs, kindClass, RDF_TYPE, RDFS_LABEL,
        OWL_SAMEAS, ricoU, BASE_NS, List.foldl]

/-- Witness for C5 (amended): `"VIAF 12345"` yields a Person with one
equivalence link; an absent field yields an Agent with none. -/
theorem person_agent_disambiguation_amended_witness :
    ((documentoAgentStep [] "Mario Rossi" (some "VIAF 12345")).2
      = Term.uri (entityUriOf EntityKind.personK (make_safe_uri_label "Mario Rossi"))
      ∧ countSameAs (documentoAgentStep [] "Mario Rossi" (some "VIAF 12345")).1
        (entityUriOf EntityKind.personK (make_safe_uri_label "Mario Rossi")) = 1)
    ∧ ((documentoAgentStep [] "Mario Rossi" none).2
      = Term.uri (entityUriOf EntityKind.agentK (make_safe_uri_label "Mario Rossi"))
      ∧ countSameAs (documentoAgentStep [] "Mario Rossi" none).1
        (entityUriOf EntityKind.agentK (make_safe_uri_label "Mario Rossi")) = 0) := by
  constructor
  · have h := (person_agent_disambiguation_amended "Mario Rossi" (some "VIAF 12345")).1
      "12345" (by decide)
    exact ⟨h.1, h.2.2.2⟩
  · have h := (person_agent_disambiguation_amended "Mario Rossi" none).2 (by decide)
    exact ⟨h.1, h.2.2⟩

/-! ## Place enrichment and shortcut copies (C3)

The GeoNames lookup (`find_geonames_id_by_label` plus the detail fetch) is
an external collaborator; it is modelled as a function from the place label
to an optional record of the attributes the scripts read from it. -/

structure GeoRecord where
  gid : Nat
  lat : Option String
  lon : Option String
  fclass : Option String
  fcode : Option String

/-- `fetch_and_add_geonames_features` (script.py:111-143,
script1.py:206-258): add the `owl:sameAs` link, the coordinates when both
are present, and the feature class/code when present — all on the place
entity only. -/
def fetchAndAddGeonames (g : Graph) (placeUri : String) (geo : Option GeoRecord) :
    Graph :=
  match geo with
  | none => g
  | some r =>
    let g1 := gadd g (placeUri, OWL_SAMEAS,
      Term.uri ("http://sws.geonames.org/" ++ toString r.gid ++ "/"))
    let g2 := match r.lat, r.lon with
      | some la, some lo =>
        gadd (gadd g1 (placeUri, WGS_LAT, Term.lit la (some XSD_DECIMAL)))
          (placeUri, WGS_LONG, Term.lit lo (some XSD_DECIMAL))
      | _, _ => g1
    let g3 := match r.fclass with
      | some fc => gadd g2 (placeUri, GN_FCLASS, Term.lit fc (some XSD_STRING))
      | none => g2
    match r.fcode with
    | some fc => gadd g3 (placeUri, GN_FCODE, Term.lit fc (some XSD_STRING))
    | none => g3

/-- The place branch of script.py (lines 399-448) for one (rule, row) pair:
the enrichment AND the shortcut copies onto the record both sit inside the
creation guard, so only the record that triggers creation receives the
feature-class/code shortcuts. -/
def placeStepScript (geoOf : String → Option GeoRecord) (g : Graph)
    (subjVal objVal : String) : Graph :=
  let su := subjUri subjVal
  let pu := entityUriOf EntityKind.placeK (make_safe_uri_label objVal)
  let g1 :=
    if (pu, RDF_TYPE, Term.uri (kindClass EntityKind.placeK)) ∈ g then g
    else
      let ga := gadd (gadd g (pu, RDF_TYPE, Term.uri (kindClass EntityKind.placeK)))
        (pu, RDFS_LABEL, Term.lit objVal none)
      let gb := fetchAndAddGeonames ga pu (geoOf objVal)
      let gc := match gvalue gb pu GN_FCLASS with
        | some t => gadd gb (su, GN_FCLASS, t)
        | none => gb
      match gvalue gc pu GN_FCODE with
      | some t => gadd gc (su, GN_FCODE, t)
      | none => gc
  gadd g1 (su, ricoU "isAssociatedWithPlace", Term.uri pu)

/-- The place branch of script1.py (lines 368-468 and 507) for one
(rule, row) pair: enrichment happens once inside the creation guard (with an
extra `rico:name` triple, line 427), but the shortcut copies onto the record
run on EVERY row ("ADD SHORTCUTS TO RECORD EVERY TIME", lines 457-465).
(The documento VIAF hook at lines 512-518 never fires here: place entity
URIs do not contain "viaf.org/viaf/".) -/
def placeStepScript1 (geoOf : String → Option GeoRecord) (g : Graph)
    (subjVal objVal : String) : Graph :=
  let su := subjUri subjVal
  let pu := entityUriOf EntityKind.placeK (make_safe_uri_label objVal)
  let g1 :=
    if (pu, RDF_TYPE, Term.uri (kindClass EntityKind.placeK)) ∈ g then g
    else
      fetchAndAddGeonames
        (gadd (gadd (gadd g (pu, RDF_TYPE, Term.uri (kindClass EntityKind.placeK)))
          (pu, RDFS_LABEL, Term.lit objVal none))
          (pu, ricoU "name", Term.lit objVal (some XSD_STRING)))
        pu (geoOf objVal)
  let g2 := match gvalue g1 pu GN_FCLASS with
    | some t => gadd g1 (su, GN_FCLASS, t)
    | none => g1
  let g3 := match gvalue g2 pu GN_FCODE with
    | some t => gadd g2 (su, GN_FCODE, t)
    | none => g2
  gadd g3 (su, ricoU "isAssociatedWithPlace", Term.uri pu)

def countPlaceType (g : Graph) : Nat :=
  (g.filter (fun t => decide (t.2.1 = RDF_TYPE ∧ t.2.2 = Term.uri (ricoU "Place")))).length

def countTriplesSP (g : Graph) (s p : String) : Nat :=
  (g.filter (fun t => decide (t.1 = s ∧ t.2.1 = p))).length

/-- A concrete external lookup: the label `"Bologna"` resolves to one
GeoNames record with feature class `"P"` and feature code `"PPLA"`. -/
def bolognaGeo : String → Option GeoRecord :=
  fun l => if l = "Bologna" then
    some ⟨2829413, some "44.49", some "11.34", some "P", some "PPLA"⟩
  else none

/-- Records `R1` then `R2`, both referencing `"Bologna"`, under script.py. -/
def c3ScriptRun : Graph :=
  placeStepScript bolognaGeo (placeStepScript bolognaGeo [] "R1" "Bologna") "R2" "Bologna"

/-- The same two records under script1.py. -/
def c3Script1Run : Graph :=
  placeStepScript1 bolognaGeo (placeStepScript1 bolognaGeo [] "R1" "Bologna") "R2" "Bologna"

/-- C3 counterexample: in script.py the shortcut copy sits inside the
creation guard (lines 442-445), so after both records reference "Bologna",
record `R1` (which triggered creation) carries the feature-class shortcut
but record `R2` does not — contradicting "BOTH referring subject records
receive shortcut copies". -/
theorem place_shortcut_second_record_counterexample :
    (subjUri "R1", GN_FCLASS, Term.lit "P" (some XSD_STRING)) ∈ c3ScriptRun
    ∧ (subjUri "R2", GN_FCLASS, Term.lit "P" (some XSD_STRING)) ∉ c3ScriptRun
    ∧ (subjUri "R2", GN_FCODE, Term.lit "PPLA" (some XSD_STRING)) ∉ c3ScriptRun
    ∧ (subjUri "R2", ricoU "isAssociatedWithPlace",
        Term.uri (entityUriOf EntityKind.placeK "Bologna")) ∈ c3ScriptRun := by
  refine ⟨by decide, by decide, by decide, by decide⟩

/-- C3 amended: in both variants two records referencing "Bologna" yield
exactly one Place entity with exactly one featureClass and one featureCode
attribute; but only the script1.py variant copies the shortcuts onto BOTH
records (per-row copy after the guard) — in script.py only the record that
triggered creation receives them. -/
theorem place_enrichment_shortcut_by_variant :
    (countPlaceType c3ScriptRun = 1
      ∧ countTriplesSP c3ScriptRun (entityUriOf EntityKind.placeK "Bologna") GN_FCLASS = 1
      ∧ countTriplesSP c3ScriptRun (entityUriOf EntityKind.placeK "Bologna") GN_FCODE = 1
      ∧ (subjUri "R1", GN_FCLASS, Term.lit "P" (some XSD_STRING)) ∈ c3ScriptRun
      ∧ (subjUri "R2", GN_FCLASS, Term.lit "P" (some XSD_STRING)) ∉ c3ScriptRun)
    ∧ (countPlaceType c3Script1Run = 1
      ∧ countTriplesSP c3Script1Run (entityUriOf EntityKind.placeK "Bologna") GN_FCLASS = 1
      ∧ countTriplesSP c3Script1Run (entityUriOf EntityKind.placeK "Bologna") GN_FCODE = 1
      ∧ (subjUri "R1", GN_FCLASS, Term.lit "P" (some XSD_STRING)) ∈ c3Script1Run
      ∧ (subjUri "R2", GN_FCLASS, Term.lit "P" (some XSD_STRING)) ∈ c3Script1Run
      ∧ (subjUri "R1", GN_FCODE, Term.lit "PPLA" (some XSD_STRING)) ∈ c3Script1Run
      ∧ (subjUri "R2", GN_FCODE, Term.lit "PPLA" (some XSD_STRING)) ∈ c3Script1Run) := by
  refine ⟨⟨by decide, by decide, by decide, by decide, by decide⟩,
    by decide, by decide, by decide, by decide, by decide, by decide, by decide⟩

/-! ## Range Expander (C1)

script.py lines 451-522: the cell value is split into semicolon groups;
inside each group the regex
`(?P<type>(?:bust|fasc)[a-z\.]*)\s*(?P<nums>[\d\s,\-\+]+)` (IGNORECASE) is
scanned left to right; "bust" tokens create `_B{num}` children and update
the remembered busta number, "fasc" tokens create `_B{busta}_{num:03d}`
children under the MOST RECENTLY seen busta (or `_F{num:03d}` when none). -/

structure RTok where
  ty : List Char
  nums : List Char
deriving DecidableEq, Repr

def numsChar (c : Char) : Bool :=
  c.isDigit || pyIsSpace c || c == ',' || c == '-' || c == '+'

/-- One regex match attempt at the head of `l`: the keyword `bust`/`fasc`
(case-insensitive), then `[a-z\.]*`, then at least one `[\d\s,\-\+]` char
(the `\s*` prefix of the number block is part of that character class, so
the consumed run is the maximal `numsChar` run).  Returns the token (type
lower-cased, as `group("type").lower()`) and the rest of the input. -/
def tryMatch (l : List Char) : Option (RTok × List Char) :=
  if (l.take 4).map Char.toLower = "bust".toList
      ∨ (l.take 4).map Char.toLower = "fasc".toList then
    let afterKw := l.drop 4
    let letters := afterKw.takeWhile (fun c => c.isAlpha || c == '.')
    let rest1 := afterKw.drop letters.length
    let run := rest1.takeWhile numsChar
    if run.isEmpty then none
    else some (⟨(l.take 4).map Char.toLower ++ letters.map Char.toLower, run⟩,
      rest1.drop run.length)
  else none

/-- `re.finditer`: scan for non-overlapping matches left to right.  The fuel
is the input length; each step consumes at least one character. -/
def tokenizeGo : Nat → List Char → List RTok
  | 0, _ => []
  | _, [] => []
  | fuel + 1, c :: rest =>
    match tryMatch (c :: rest) with
    | some (tok, remaining) => tok :: tokenizeGo fuel remaining
    | none => tokenizeGo fuel rest

def tokenize (l : List Char) : List RTok :=
  tokenizeGo l.length l

def isCommaSpace (c : Char) : Bool := c == ',' || c == ' '

/-- Python `.strip(', ')`. -/
def stripCommaSpace (l : List Char) : List Char :=
  ((l.dropWhile isCommaSpace).reverse.dropWhile isCommaSpace).reverse

/-- Python `str.split(sep)` for a one-character separator (empty pieces are
kept, the empty string gives one empty piece). -/
def splitOnChar (sep : Char) : List Char → List (List Char)
  | [] => [[]]
  | c :: rest =>
    let r := splitOnChar sep rest
    if c = sep then [] :: r
    else
      match r with
      | [] => [[c]]
      | h :: t => (c :: h) :: t

/-- `int()` on a piece of a dash range (whose characters are digits and
whitespace only, given the regex character class): strip, then require a
non-empty digit string. -/
def numToken (t0 : List Char) : Option Nat :=
  let t := stripList t0
  if t.isEmpty then none
  else if t.all Char.isDigit then some (digitsToNat t) else none

/-- Expansion of one comma-separated part (script.py:482-490): a dash pair
becomes an inclusive range (a `ValueError` — wrong number of dash pieces or
a non-numeric piece — is swallowed), a lone number stands for itself,
anything else is skipped. -/
def expandPart (part : List Char) : List Nat :=
  let p := stripList part
  if p.contains '-' then
    match splitOnChar '-' p with
    | [a, b] =>
      match numToken a, numToken b with
      | some s, some e => List.range' s (e + 1 - s)
      | _, _ => []
    | _ => []
  else if !p.isEmpty && p.all Char.isDigit then [digitsToNat p]
  else []

/-- `expanded_nums` for one token (script.py:473-490): strip, turn `+` into
`,`, strip stray commas/spaces, split on commas and expand each part. -/
def expandNums (nums : List Char) : List Nat :=
  let cleaned :=
    stripCommaSpace ((stripList nums).map (fun c => if c = '+' then ',' else c))
  ((splitOnChar ',' cleaned).map expandPart).flatten

def startsWithL : List Char → List Char → Bool
  | [], _ => true
  | _ :: _, [] => false
  | p :: ps, c :: cs => p == c && startsWithL ps cs

/-- Python's `in` on strings (substring test), on character lists. -/
def isSubList : List Char → List Char → Bool
  | p, [] => p.isEmpty
  | p, c :: rest => startsWithL p (c :: rest) || isSubList p rest

/-- `f"{num:03d}"`. -/
def pad3 (n : Nat) : String :=
  let s := toString n
  (List.replicate (3 - s.length) '0').asString ++ s

/-- The per-group loop over the regex matches (script.py:471-520), carrying
`current_busta_num`: a "bust" token emits one `_B{num}` containment triple
per expanded number and leaves the LAST number as the new state; a "fasc"
token emits `_B{busta}_{num:03d}` children under that single remembered
busta number (`_F{num:03d}` when no busta was seen yet). -/
def processToks (subjVal predU : String) : Option Nat → List RTok → List Triple
  | _, [] => []
  | cur, t :: rest =>
    let nums := expandNums t.nums
    if isSubList "bust".toList t.ty then
      (nums.map (fun n =>
        (subjUri subjVal, predU, Term.uri (subjUri (subjVal ++ "_B" ++ toString n)))))
      ++ processToks subjVal predU (nums.foldl (fun _ n => some n) cur) rest
    else if isSubList "fasc".toList t.ty then
      (nums.map (fun n =>
        match cur with
        | some b =>
          (subjUri subjVal, predU,
            Term.uri (subjUri (subjVal ++ "_B" ++ toString b ++ "_" ++ pad3 n)))
        | none =>
          (subjUri subjVal, predU, Term.uri (subjUri (subjVal ++ "_F" ++ pad3 n)))))
      ++ processToks subjVal predU cur rest
    else processToks subjVal predU cur rest

/-- The whole range branch (script.py:453-522) for one cell value: split on
semicolons, reset the busta state at each group boundary, and process each
group's token sequence.  (Child URIs are `BASE_NS + make_safe_uri_label(id)`
— the same shape as record URIs, hence `subjUri`.) -/
def rangeBranchTriples (subjVal objVal predU : String) : List Triple :=
  ((splitOnChar ';' objVal.toList).map (fun grp =>
    let gs := stripList grp
    if gs.isEmpty then []
    else processToks subjVal predU none (tokenize gs))).flatten

/-- C1 counterexample: the cell `"Busta 1-3, fasc. 1-2"` under parent `S1`
does NOT produce 9 containment triples — the inner children are not
replicated under every outer number. -/
theorem range_expansion_not_nine :
    (rangeBranchTriples "S1" "Busta 1-3, fasc. 1-2" (ricoU "directlyIncludes")).length ≠ 9 := by
  decide

/-- C1 amended: the cell `"Busta 1-3, fasc. 1-2"` under parent `S1` emits
exactly 5 containment triples — one child per outer number (`S1_B1`,
`S1_B2`, `S1_B3`) plus the two inner children scoped only under the LAST
outer number seen (`S1_B3_001`, `S1_B3_002`), because `current_busta_num`
holds a single number (script.py:462-464, 504, 509-512), not the whole
outer set. -/
theorem range_expansion_five_triples :
    rangeBranchTriples "S1" "Busta 1-3, fasc. 1-2" (ricoU "directlyIncludes") =
      [(subjUri "S1", ricoU "directlyIncludes", Term.uri (subjUri "S1_B1")),
       (subjUri "S1", ricoU "directlyIncludes", Term.uri (subjUri "S1_B2")),
       (subjUri "S1", ricoU "directlyIncludes", Term.uri (subjUri "S1_B3")),
       (subjUri "S1", ricoU "directlyIncludes", Term.uri (subjUri "S1_B3_001")),
       (subjUri "S1", ricoU "directlyIncludes", Term.uri (subjUri "S1_B3_002"))]
    ∧ (rangeBranchTriples "S1" "Busta 1-3, fasc. 1-2" (ricoU "directlyIncludes")).length
      = 5 := by
  refine ⟨by decide, by decide⟩

/-! ## The documento VIAF side effect of script1.py (C10) -/

theorem startsWithL_map {p l : List Char} (f : Char → Char)
    (h : startsWithL p l = true) : startsWithL (p.map f) (l.map f) = true := by
  induction p generalizing l with
  | nil => rfl
  | cons x ps ih =>
    cases l with
    | nil => exact absurd h (by simp [startsWithL])
    | cons c cs =>
      simp only [startsWithL, Bool.and_eq_true, beq_iff_eq] at h
      simp only [List.map_cons, startsWithL, Bool.and_eq_true, beq_iff_eq]
      exact ⟨congrArg f h.1, ih h.2⟩

theorem isSubList_map {p l : List Char} (f : Char → Char)
    (h : isSubList p l = true) : isSubList (p.map f) (l.map f) = true := by
  induction l with
  | nil =>
    simp only [isSubList, List.isEmpty_iff] at h
    subst h
    rfl
  | cons c rest ih =>
    simp only [isSubList, Bool.or_eq_true] at h
    rcases h with h | h
    · simp only [List.map_cons, isSubList, Bool.or_eq_true]
      exact Or.inl (by simpa using startsWithL_map f h)
    · simp only [List.map_cons, isSubList, Bool.or_eq_true]
      exact Or.inr (ih h)

/-- The tail of script1.py's per-row processing (lines 506-518): add the
primary triple, then — on the documento sheet, when the object term is a
`URIRef` whose lower-cased text contains `"viaf.org/viaf/"` — also add a
`rico:hasSender` triple and a `rico:isAssociatedWith` triple from the
subject to that URI. -/
def script1RowFinish (g : Graph) (sheetLower subjVal predU : String) (t : Term) :
    Graph :=
  let su := subjUri subjVal
  let g1 := gadd g (su, predU, t)
  match t with
  | Term.uri u =>
    if sheetLower = "documento"
        ∧ isSubList "viaf.org/viaf/".toList (u.toList.map Char.toLower) = true then
      gadd (gadd g1 (su, ricoU "hasSender", t)) (su, ricoU "isAssociatedWith", t)
    else g1
  | Term.lit _ _ => g1

/-- C10: on the documento sheet in script1.py, whenever the materialized
object term is a URI whose text contains `"viaf.org/viaf/"`, the engine
adds — besides the rule's own triple, and regardless of the rule's
predicate — a `rico:hasSender` triple and a `rico:isAssociatedWith` triple
from the subject to that URI (script1.py:511-518). -/
theorem documento_viaf_side_effect (g : Graph) (subjVal predU u : String)
    (h : isSubList "viaf.org/viaf/".toList u.toList = true) :
    (subjUri subjVal, predU, Term.uri u)
      ∈ script1RowFinish g "documento" subjVal predU (Term.uri u)
    ∧ (subjUri subjVal, ricoU "hasSender", Term.uri u)
      ∈ script1RowFinish g "documento" subjVal predU (Term.uri u)
    ∧ (subjUri subjVal, ricoU "isAssociatedWith", Term.uri u)
      ∈ script1RowFinish g "documento" subjVal predU (Term.uri u) := by
  have hlower : isSubList "viaf.org/viaf/".toList (u.toList.map Char.toLower) = true := by
    have hm := isSubList_map Char.toLower h
    rwa [show ("viaf.org/viaf/".toList.map Char.toLower) = "viaf.org/viaf/".toList from
      by decide] at hm
  have hred : script1RowFinish g "documento" subjVal predU (Term.uri u)
      = gadd (gadd (gadd g (subjUri subjVal, predU, Term.uri u))
          (subjUri subjVal, ricoU "hasSender", Term.uri u))
          (subjUri subjVal, ricoU "isAssociatedWith", Term.uri u) := by
    show (if "documento" = "documento"
        ∧ isSubList "viaf.org/viaf/".toList (u.toList.map Char.toLower) = true then
        gadd (gadd (gadd g (subjUri subjVal, predU, Term.uri u))
          (subjUri subjVal, ricoU "hasSender", Term.uri u))
          (subjUri subjVal, ricoU "isAssociatedWith", Term.uri u)
      else gadd g (subjUri subjVal, predU, Term.uri u)) = _
    rw [if_pos ⟨rfl, hlower⟩]
  rw [hred]
  exact ⟨gadd_mono _ (gadd_mono _ (gadd_mem_self _ _)),
    gadd_mono _ (gadd_mem_self _ _), gadd_mem_self _ _⟩

/-- Witness for C10: a VIAF URI object on the documento sheet receives the
two derived triples. -/
theorem documento_viaf_side_effect_witness :
    (subjUri "R1", ricoU "hasOrHadTitle", Term.uri "http://viaf.org/viaf/123456/")
      ∈ script1RowFinish [] "documento" "R1" (ricoU "hasOrHadTitle")
        (Term.uri "http://viaf.org/viaf/123456/")
    ∧ (subjUri "R1", ricoU "hasSender", Term.uri "http://viaf.org/viaf/123456/")
      ∈ script1RowFinish [] "documento" "R1" (ricoU "hasOrHadTitle")
        (Term.uri "http://viaf.org/viaf/123456/")
    ∧ (subjUri "R1", ricoU "isAssociatedWith", Term.uri "http://viaf.org/viaf/123456/")
      ∈ script1RowFinish [] "documento" "R1" (ricoU "hasOrHadTitle")
        (Term.uri "http://viaf.org/viaf/123456/") :=
  documento_viaf_side_effect [] "R1" (ricoU "hasOrHadTitle")
    "http://viaf.org/viaf/123456/" (by decide)
